import Mathlib

/-!
Verification of the oax schema-to-code translator and pipeline engine.

The definitions below are a shallow embedding of the TypeScript sources:
the Zod code generator (`generateZodCodeFromSchema` and friends), the
operation extractor (`generateOperations`, `generateOperationsCode`), the
pipeline engine (`Pipeline.run`) and two generation steps (`zodGenerator`,
`validatorPipeline`).  JavaScript objects with optional fields are embedded
as structures of `Option`-typed fields; JavaScript string building is
embedded as Lean `String` concatenation.  Literal braces and apostrophes in
generated code are written with `\x7b`, `\x7d` and `\x27` escapes.
-/

set_option maxRecDepth 4000

/-- A JSON value that is either a boolean or a number, as can appear in the
`exclusiveMinimum` / `exclusiveMaximum` fields of a schema. -/
inductive NumOrBool : Type where
  | nb (b : Bool)
  | nn (n : Int)
deriving Repr, DecidableEq

/-- The non-recursive fields of a schema object.  A missing field is `none`.
Boolean-valued fields that the generator compares with `=== true` are
embedded as `Bool` (absent = `false`). -/
structure SchemaCore where
  ref : Option String := none
  discriminator : Option String := none
  nullable : Bool := false
  type : Option String := none
  format : Option String := none
  enum : Option (List String) := none
  minLength : Option Nat := none
  maxLength : Option Nat := none
  pattern : Option String := none
  minimum : Option Int := none
  exclusiveMinimum : Option NumOrBool := none
  maximum : Option Int := none
  exclusiveMaximum : Option NumOrBool := none
  multipleOf : Option Int := none
  minItems : Option Nat := none
  maxItems : Option Nat := none
  uniqueItems : Bool := false
  required : Option (List String) := none
  minProperties : Option Nat := none
  maxProperties : Option Nat := none
  deprecated : Bool := false
deriving Repr, DecidableEq

/-- A schema node: the non-recursive core plus the recursive fields
(`allOf`, `anyOf`, `oneOf`, `items`, `properties`, `additionalProperties`).
`additionalProperties` is either a boolean (`Sum.inl`) or a schema
(`Sum.inr`). -/
inductive SchemaNode : Type where
  | mk (core : SchemaCore)
       (allOf : Option (List SchemaNode))
       (anyOf : Option (List SchemaNode))
       (oneOf : Option (List SchemaNode))
       (items : Option SchemaNode)
       (properties : Option (List (String × SchemaNode)))
       (additionalProperties : Option (Sum Bool SchemaNode))

/-- The core fields of a schema node. -/
def SchemaNode.core : SchemaNode → SchemaCore
  | .mk c _ _ _ _ _ _ => c

/-- The `allOf` member list of a schema node. -/
def SchemaNode.allOf : SchemaNode → Option (List SchemaNode)
  | .mk _ a _ _ _ _ _ => a

/-- The `anyOf` member list of a schema node. -/
def SchemaNode.anyOf : SchemaNode → Option (List SchemaNode)
  | .mk _ _ a _ _ _ _ => a

/-- The `oneOf` member list of a schema node. -/
def SchemaNode.oneOf : SchemaNode → Option (List SchemaNode)
  | .mk _ _ _ o _ _ _ => o

/-- The `items` schema of a schema node. -/
def SchemaNode.items : SchemaNode → Option SchemaNode
  | .mk _ _ _ _ i _ _ => i

/-- The `properties` map of a schema node, in declaration order. -/
def SchemaNode.properties : SchemaNode → Option (List (String × SchemaNode))
  | .mk _ _ _ _ _ p _ => p

/-- The `additionalProperties` field of a schema node. -/
def SchemaNode.additionalProperties : SchemaNode → Option (Sum Bool SchemaNode)
  | .mk _ _ _ _ _ _ ap => ap

/-- A schema node with only core fields set. -/
def SchemaNode.ofCore (c : SchemaCore) : SchemaNode :=
  .mk c none none none none none none

/-- Splitting of a character list at every occurrence of a separator
character (the list-level model of JavaScript `String.split`). -/
def splitOnChar (sep : Char) : List Char → List (List Char)
  | [] => [[]]
  | c :: rest =>
      let r := splitOnChar sep rest
      if c = sep then [] :: r
      else
        match r with
        | [] => [[c]]
        | g :: gs => (c :: g) :: gs

/-- ASCII lowercasing of one character (the model of `toLowerCase` on the
ASCII file extensions the engine handles). -/
def asciiLower (c : Char) : Char :=
  if 'A' ≤ c ∧ c ≤ 'Z' then Char.ofNat (c.toNat + 32) else c

/-- ASCII lowercasing of a string. -/
def lowerAscii (s : String) : String :=
  String.mk (s.toList.map asciiLower)

/-- Regex-pattern escaping used for the `pattern` constraint: each backslash
is doubled, then each forward slash is escaped. -/
def escapeRegexPattern (p : String) : String :=
  (p.replace "\\" "\\\\").replace "/" "\\/"

/-- Translation of a string schema (`generateStringSchema`): an `enum`
short-circuits to `z.enum`, then a recognized `format` picks the base
validator (some formats return early), then `minLength`, `maxLength` and a
non-empty `pattern` are appended as chained constraints. -/
def generateStringSchema (s : SchemaNode) : String :=
  match s.core.enum with
  | some vs =>
      "z.enum([" ++ String.intercalate ", " (vs.map (fun v => "\x27" ++ v ++ "\x27")) ++ "])"
  | none =>
    match s.core.format with
    | some "date-time" => "z.iso.datetime()"
    | some "email" => "z.email()"
    | some "uri" => "z.url()"
    | some "url" => "z.url()"
    | fmt =>
      let z0 := "z.string()" ++
        (match fmt with
          | some "date" => ".date()"
          | some "time" => ".time()"
          | some "uuid" => ".uuid()"
          | some "ipv4" => ".ip(\x7b version: \x27v4\x27 \x7d)"
          | some "ipv6" => ".ip(\x7b version: \x27v6\x27 \x7d)"
          | _ => "")
      let z1 := z0 ++
        (match s.core.minLength with
          | some n => ".min(" ++ toString n ++ ")"
          | none => "")
      let z2 := z1 ++
        (match s.core.maxLength with
          | some n => ".max(" ++ toString n ++ ")"
          | none => "")
      match s.core.pattern with
      | some p => if p.isEmpty then z2 else z2 ++ ".regex(/" ++ escapeRegexPattern p ++ "/)"
      | none => z2

/-- The chained numeric constraints shared verbatim by the number and the
integer generators: lower bound (inclusive unless `exclusiveMinimum` is the
boolean `true`), legacy numeric `exclusiveMinimum`, upper bound, legacy
numeric `exclusiveMaximum`, `multipleOf`. -/
def numericConstraints (s : SchemaNode) : String :=
  let z0 :=
    match s.core.minimum with
    | some m =>
        if s.core.exclusiveMinimum = some (NumOrBool.nb true) then
          ".gt(" ++ toString m ++ ")"
        else
          ".gte(" ++ toString m ++ ")"
    | none => ""
  let z1 := z0 ++
    (match s.core.exclusiveMinimum with
      | some (NumOrBool.nn e) => ".gt(" ++ toString e ++ ")"
      | _ => "")
  let z2 := z1 ++
    (match s.core.maximum with
      | some m =>
          if s.core.exclusiveMaximum = some (NumOrBool.nb true) then
            ".lt(" ++ toString m ++ ")"
          else
            ".lte(" ++ toString m ++ ")"
      | none => "")
  let z3 := z2 ++
    (match s.core.exclusiveMaximum with
      | some (NumOrBool.nn e) => ".lt(" ++ toString e ++ ")"
      | _ => "")
  z3 ++
    (match s.core.multipleOf with
      | some m => ".multipleOf(" ++ toString m ++ ")"
      | none => "")

/-- Translation of a number schema (`generateNumberSchema`). -/
def generateNumberSchema (s : SchemaNode) : String :=
  "z.number()" ++ numericConstraints s

/-- Translation of an integer schema (`generateIntegerSchema`): the same
constraints chained onto `z.number().int()`. -/
def generateIntegerSchema (s : SchemaNode) : String :=
  "z.number().int()" ++ numericConstraints s

mutual

/-- Translation of an arbitrary schema (`generateZodCodeFromSchema`):
dispatches in the fixed order reference, `allOf`, `anyOf`, `oneOf`
(each of these branches returns directly), then applies the nullable
marker around the base-type translation. -/
def generateZodCodeFromSchema : SchemaNode → String
  | .mk core allOf anyOf oneOf items props addProps =>
    match core.ref with
    | some r =>
        let refName := String.mk ((splitOnChar '/' r.toList).getLastD [])
        if refName = "" then "z.any()" else refName
    | none =>
      match allOf with
      | some l =>
          let ss := genList l
          match ss with
          | [] => ""
          | [s0] => s0
          | s0 :: s1 :: rest =>
              rest.foldl (fun acc curr => "z.intersection(" ++ acc ++ ", " ++ curr ++ ")")
                ("z.intersection(" ++ s0 ++ ", " ++ s1 ++ ")")
      | none =>
        match anyOf with
        | some l => "z.union([" ++ String.intercalate ", " (genList l) ++ "])"
        | none =>
          match oneOf with
          | some l =>
              match core.discriminator with
              | some d =>
                  "z.discriminatedUnion(\"" ++ d ++ "\", [" ++
                    String.intercalate ", " (genList l) ++ "])"
              | none => "z.union([" ++ String.intercalate ", " (genList l) ++ "])"
          | none =>
              let baseSchema :=
                generateBaseZodSchema (.mk core none none none items props addProps)
              if core.nullable then baseSchema ++ ".nullable()" else baseSchema
termination_by s => (sizeOf s, 3)

/-- Base-type dispatch (`generateBaseZodSchema`): on the `type` field, with
a permissive `z.any()` fallback for unrecognized types. -/
def generateBaseZodSchema (s : SchemaNode) : String :=
  match s.core.type with
  | some "string" => generateStringSchema s
  | some "number" => generateNumberSchema s
  | some "integer" => generateIntegerSchema s
  | some "boolean" => "z.boolean()"
  | some "array" => generateArraySchema s
  | some "object" => generateObjectSchema s
  | _ => "z.any()"
termination_by (sizeOf s, 2)

/-- Translation of an array schema (`generateArraySchema`): item schema,
then `minItems` / `maxItems` count constraints, then the uniqueness
refinement when `uniqueItems` is `true`. -/
def generateArraySchema : SchemaNode → String
  | .mk core _allOf _anyOf _oneOf items _props _addProps =>
    let itemSchema :=
      match items with
      | some i => generateZodCodeFromSchema i
      | none => "z.any()"
    let z0 := "z.array(" ++ itemSchema ++ ")"
    let z1 := z0 ++
      (match core.minItems with
        | some n => ".min(" ++ toString n ++ ")"
        | none => "")
    let z2 := z1 ++
      (match core.maxItems with
        | some n => ".max(" ++ toString n ++ ")"
        | none => "")
    if core.uniqueItems then
      z2 ++ ".refine((items) => new Set(items).size === items.length, \x7b message: \"Items must be unique\" \x7d)"
    else z2
termination_by s => (sizeOf s, 1)

/-- Translation of an object schema (`generateObjectSchema`): without
declared properties, record semantics driven by `additionalProperties`;
with declared properties, one entry per property, then the
closed/open marker from `additionalProperties`, then the
`minProperties` / `maxProperties` refinements. -/
def generateObjectSchema : SchemaNode → String
  | .mk core _allOf _anyOf _oneOf _items props addProps =>
    match props with
    | none =>
        match addProps with
        | some (Sum.inl false) => "z.object(\x7b\x7d).strict()"
        | some (Sum.inl true) => "z.record(z.string(), z.any())"
        | some (Sum.inr v) =>
            "z.record(z.string(), " ++ generateZodCodeFromSchema v ++ ")"
        | none => "z.record(z.string(), z.any())"
    | some propList =>
        let properties := String.intercalate ", " (genProps core.required propList)
        let z0 := "z.object(\x7b " ++ properties ++ " \x7d)"
        let z1 :=
          match addProps with
          | some (Sum.inl false) => z0 ++ ".strict()"
          | some (Sum.inl true) => z0 ++ ".passthrough()"
          | some (Sum.inr _) => z0 ++ ".passthrough() /* additional properties allowed */"
          | none => z0
        let z2 := z1 ++
          (match core.minProperties with
            | some n =>
                ".refine((obj) => Object.keys(obj).length >= " ++ toString n ++
                  ", \x7b message: \"Object must have at least " ++ toString n ++
                  " properties\" \x7d)"
            | none => "")
        z2 ++
          (match core.maxProperties with
            | some n =>
                ".refine((obj) => Object.keys(obj).length <= " ++ toString n ++
                  ", \x7b message: \"Object must have at most " ++ toString n ++
                  " properties\" \x7d)"
            | none => "")
termination_by s => (sizeOf s, 1)

/-- Rendering of one declared object property: the translated schema, the
optional suffix when the name is not in the required set, and the
deprecation marker comment when the property is deprecated. -/
def renderObjectProperty (req : Option (List String)) (nm : String) (prop : SchemaNode) : String :=
  let isRequired :=
    match req with
    | some r => r.contains nm
    | none => false
  let zodCode := generateZodCodeFromSchema prop
  let optionalSuffix := if isRequired then "" else ".optional()"
  if prop.core.deprecated then
    nm ++ ": " ++ zodCode ++ optionalSuffix ++ " /* @deprecated */"
  else
    nm ++ ": " ++ zodCode ++ optionalSuffix
termination_by (sizeOf prop, 4)

/-- Translation of a list of composition members. -/
def genList : List SchemaNode → List String
  | [] => []
  | s :: rest => generateZodCodeFromSchema s :: genList rest
termination_by l => (sizeOf l, 0)

/-- Rendering of the declared-property entries of an object schema. -/
def genProps (req : Option (List String)) : List (String × SchemaNode) → List String
  | [] => []
  | (nm, p) :: rest => renderObjectProperty req nm p :: genProps req rest
termination_by l => (sizeOf l, 0)

end

/-- Translation entry point for call sites whose schema field may be
absent: a missing schema yields the permissive fragment. -/
def generateZodCodeFromSchemaOpt : Option SchemaNode → String
  | none => "z.any()"
  | some s => generateZodCodeFromSchema s

/-- A translated schema occurrence: the code fragment plus its required
flag. -/
structure SchemaReference where
  zodCode : String
  required : Bool
deriving Repr, DecidableEq

/-- A declared (non-reference) parameter of an operation.  `paramIn` embeds
the JSON field named in, one of path, query, header or cookie.  The
required flag embeds `required || false`. -/
structure ParameterObject where
  name : String
  paramIn : String
  required : Bool
  schema : Option SchemaNode

/-- A parameter entry: either a reference or a declared parameter. -/
inductive ParameterOrRef : Type where
  | pref (r : String)
  | pobj (p : ParameterObject)

/-- A media-type entry of a request body or response. -/
structure MediaTypeObject where
  schema : Option SchemaNode

/-- A request body object: media-type map plus required flag. -/
structure RequestBodyObject where
  content : List (String × MediaTypeObject)
  required : Bool

/-- A response object: description plus media-type map. -/
structure ResponseObject where
  description : Option String
  content : List (String × MediaTypeObject)

/-- A response entry: either a reference or a response object. -/
inductive ResponseOrRef : Type where
  | rref (r : String)
  | robj (r : ResponseObject)

/-- One operation of a path item. -/
structure OperationObject where
  operationId : Option String := none
  summary : Option String := none
  description : Option String := none
  parameters : Option (List ParameterOrRef) := none
  requestBody : Option (Sum String RequestBodyObject) := none
  responses : Option (List (String × ResponseOrRef)) := none

/-- A path item: one optional operation per recognized HTTP verb. -/
structure PathItem where
  get : Option OperationObject := none
  post : Option OperationObject := none
  put : Option OperationObject := none
  delete : Option OperationObject := none
  patch : Option OperationObject := none
  head : Option OperationObject := none
  options : Option OperationObject := none

/-- The parts of an API description document the generator reads: the path
map and the named component schemas (a `Sum.inl` entry is a reference entry,
which the schema collector skips). -/
structure OASDoc where
  paths : Option (List (String × Option PathItem)) := none
  componentsSchemas : Option (List (String × Sum String SchemaNode)) := none

/-- An extracted parameter record. -/
structure ParameterInfo where
  name : String
  paramIn : String
  required : Bool
  schema : SchemaReference
deriving Repr, DecidableEq

/-- An extracted response record. -/
structure ResponseInfo where
  status : String
  description : Option String := none
  schema : Option SchemaReference := none
deriving Repr, DecidableEq

/-- An extracted operation record. -/
structure OperationInfo where
  operationId : String
  method : String
  path : String
  parameters : List ParameterInfo
  requestBody : Option SchemaReference := none
  responses : List ResponseInfo := []
  summary : Option String := none
  description : Option String := none
deriving Repr, DecidableEq

/-- Lookup in a JavaScript-object-like association list. -/
def lookupRecord {α : Type} (m : List (String × α)) (k : String) : Option α :=
  (m.find? (fun e => e.1 == k)).map (fun e => e.2)

/-- An option is kept only when truthy: the empty string is dropped. -/
def sanitizeOpt : Option String → Option String
  | some s => if s = "" then none else some s
  | none => none

/-- The recognized HTTP verbs, in iteration order. -/
def httpMethods : List String :=
  ["get", "post", "put", "delete", "patch", "head", "options"]

/-- The operation a path item holds for a verb. -/
def PathItem.byMethod (p : PathItem) : String → Option OperationObject
  | "get" => p.get
  | "post" => p.post
  | "put" => p.put
  | "delete" => p.delete
  | "patch" => p.patch
  | "head" => p.head
  | "options" => p.options
  | _ => none

/-- Path sanitization for synthesized operation ids: every character that
is not an ASCII letter or digit is removed. -/
def sanitizePath (p : String) : String :=
  String.mk (p.toList.filter (fun c => c.isAlpha || c.isDigit))

/-- The extracted parameter record of a declared parameter. -/
def paramInfoOf (p : ParameterObject) : ParameterInfo :=
  { name := p.name,
    paramIn := p.paramIn,
    required := p.required,
    schema := { zodCode := generateZodCodeFromSchemaOpt p.schema, required := p.required } }

/-- The parameter-extraction loop: reference entries are skipped, declared
parameters of every location (including cookie) are recorded. -/
def extractParameters : List ParameterOrRef → List ParameterInfo
  | [] => []
  | .pref _ :: rest => extractParameters rest
  | .pobj p :: rest => paramInfoOf p :: extractParameters rest

/-- Request-body extraction: only a non-reference body with a schema under
the JSON media type yields a record. -/
def extractRequestBody (rb : Option (Sum String RequestBodyObject)) : Option SchemaReference :=
  match rb with
  | some (Sum.inr body) =>
      match lookupRecord body.content "application/json" with
      | some mt =>
          match mt.schema with
          | some sch => some { zodCode := generateZodCodeFromSchema sch, required := body.required }
          | none => none
      | none => none
  | _ => none

/-- Response extraction: reference entries are skipped; a JSON media-type
schema is translated, otherwise the schema field stays empty. -/
def extractResponses : List (String × ResponseOrRef) → List ResponseInfo
  | [] => []
  | (_, .rref _) :: rest => extractResponses rest
  | (status, .robj r) :: rest =>
      { status := status,
        description := sanitizeOpt r.description,
        schema :=
          match lookupRecord r.content "application/json" with
          | some mt =>
              mt.schema.map (fun sch =>
                ({ zodCode := generateZodCodeFromSchema sch, required := true } : SchemaReference))
          | none => none } :: extractResponses rest

/-- The extracted record of one operation: the id is synthesized from the
method and the sanitized path when missing (or empty, which is falsy). -/
def buildOperationInfo (pathTemplate method : String) (operation : OperationObject) :
    OperationInfo :=
  { operationId :=
      match operation.operationId with
      | some oid => if oid = "" then method ++ sanitizePath pathTemplate else oid
      | none => method ++ sanitizePath pathTemplate,
    method := method,
    path := pathTemplate,
    parameters :=
      match operation.parameters with
      | some l => extractParameters l
      | none => [],
    requestBody := extractRequestBody operation.requestBody,
    responses :=
      match operation.responses with
      | some l => extractResponses l
      | none => [],
    summary := sanitizeOpt operation.summary,
    description := sanitizeOpt operation.description }

/-- The operation extractor (`generateOperations`): walks the path map over
the recognized verbs. -/
def generateOperations (oas : OASDoc) : List OperationInfo :=
  match oas.paths with
  | none => []
  | some paths =>
      (paths.map (fun pe =>
        match pe.2 with
        | none => []
        | some item =>
            httpMethods.filterMap (fun method =>
              (item.byMethod method).map (buildOperationInfo pe.1 method)))).flatten

/-- The path-parameter group of an operation. -/
def pathParamsOf (op : OperationInfo) : List ParameterInfo :=
  op.parameters.filter (fun p => p.paramIn == "path")

/-- The query-parameter group of an operation. -/
def queryParamsOf (op : OperationInfo) : List ParameterInfo :=
  op.parameters.filter (fun p => p.paramIn == "query")

/-- The header-parameter group of an operation. -/
def headerParamsOf (op : OperationInfo) : List ParameterInfo :=
  op.parameters.filter (fun p => p.paramIn == "header")

/-- The generated `z.object` code of one parameter group. -/
def generateParamObject (params : List ParameterInfo) : String :=
  if params.length = 0 then "z.object(\x7b\x7d)"
  else
    let properties := String.intercalate ", " (params.map (fun p =>
      p.name ++ ": " ++ p.schema.zodCode ++ (if p.required then "" else ".optional()")))
    "z.object(\x7b " ++ properties ++ " \x7d)"

/-- A quoted string for truthy values, the text `undefined` otherwise. -/
def quotedOrUndefined : Option String → String
  | some s => if s = "" then "undefined" else "\x27" ++ s ++ "\x27"
  | none => "undefined"

/-- The generated entry for one response status. -/
def responseEntryCode (r : ResponseInfo) : String :=
  "\n    \x27" ++ r.status ++ "\x27: \x7b\n      description: " ++
    quotedOrUndefined r.description ++ ",\n      schema: " ++
    (match r.schema with
      | some s => s.zodCode
      | none => "z.void()") ++
    "\n    \x7d"

/-- The generated object literal entry for one operation: only the path,
query and header groups are emitted. -/
def operationObjectCode (op : OperationInfo) : String :=
  let pathParamsCode := generateParamObject (pathParamsOf op)
  let queryParamsCode := generateParamObject (queryParamsOf op)
  let headerParamsCode := generateParamObject (headerParamsOf op)
  let requestBodyCode :=
    match op.requestBody with
    | some rb =>
        "requestBody: \x7b schema: " ++ rb.zodCode ++ ", required: " ++ toString rb.required ++
          " \x7d,"
    | none => ""
  let responsesCode := String.intercalate "," (op.responses.map responseEntryCode)
  "\n  \x27" ++ op.operationId ++ "\x27: \x7b\n    method: \x27" ++ op.method ++
    "\x27,\n    path: \x27" ++ op.path ++ "\x27,\n    operationId: \x27" ++ op.operationId ++
    "\x27,\n    summary: " ++ quotedOrUndefined op.summary ++
    ",\n    description: " ++ quotedOrUndefined op.description ++
    ",\n    params: " ++ pathParamsCode ++
    ",\n    queries: " ++ queryParamsCode ++
    ",\n    headers: " ++ headerParamsCode ++
    ",\n    " ++ requestBodyCode ++
    "\n    responses: \x7b" ++ responsesCode ++ "\n    \x7d\n  \x7d"

/-- The generated `operations` constant (`generateOperationsCode`). -/
def generateOperationsCode (operations : List OperationInfo) : String :=
  let operationObjects := String.intercalate "," (operations.map operationObjectCode)
  "export const operations = \x7b" ++ operationObjects ++
    "\n\x7d as const;\n\nexport type Operations = typeof operations;"

/-- A collected named component schema. -/
structure ZodSchemaInfo where
  name : String
  zodCode : String
deriving Repr, DecidableEq

/-- The component-schema collector (`generateZodSchemas`): reference
entries are skipped, the rest are translated once, in order. -/
def generateZodSchemas (oas : OASDoc) : List ZodSchemaInfo :=
  match oas.componentsSchemas with
  | none => []
  | some entries =>
      entries.filterMap (fun e =>
        match e.2 with
        | Sum.inl _ => none
        | Sum.inr sch => some { name := e.1, zodCode := generateZodCodeFromSchema sch })

/-- The generated schema exports plus the `schemas` object
(`generateSchemaCode`). -/
def generateSchemaCode (schemas : List ZodSchemaInfo) : String :=
  let schemaExports := String.intercalate "\n\n"
    (schemas.map (fun s => "export const " ++ s.name ++ " = " ++ s.zodCode ++ ";"))
  let schemasObject := String.intercalate ",\n" (schemas.map (fun s => "  " ++ s.name))
  schemaExports ++ "\n\nexport const schemas = \x7b\n" ++ schemasObject ++ "\n\x7d;"

/-- A step content value: absent (falsy), a string (falsy when empty), or a
structured value — here always a parsed API description document. -/
inductive Content : Type where
  | absent
  | str (s : String)
  | doc (d : OASDoc)

/-- JavaScript falsiness of a content value. -/
def Content.falsy : Content → Bool
  | .absent => true
  | .str s => s.isEmpty
  | .doc _ => false

/-- Property access on a content value as the generator performs it: a
document is itself; on a non-object every field read yields nothing, which
is the document with no fields. -/
def Content.asDoc : Content → OASDoc
  | .doc d => d
  | _ => {}

/-- Serialization before writing: strings pass through; structured content
is pretty-printed (the JSON rendering is modelled abstractly by a fixed
injective-enough textual rendering irrelevant to the claims). -/
def Content.serialize : Content → String
  | .str s => s
  | .doc _ => "[structured content]"
  | .absent => "undefined"

/-- A loaded raw input. -/
structure StepInput where
  name : String
  content : Content

/-- A step output.  The free-form metadata map is embedded by the one entry
the steps read: the extracted operations keyed by operation id
(`meta?.operations`, absent when the step set no metadata or no
operations entry). -/
structure StepOutput where
  name : String
  content : Content
  metaOperations : Option (List (String × OperationInfo)) := none

/-- The context snapshot a step receives. -/
structure StepContext where
  inputs : List (String × StepInput)
  outputDir : String
  previousOutputs : List (String × StepOutput)

/-- A pipeline step: name, optional declared raw-input key, optional output
file, and the process contract.  A thrown error is an `Except.error`
carrying the message. -/
structure Step where
  name : String
  input : Option String := none
  outputFile : Option String := none
  process : StepContext → Except String StepOutput

/-- A pipeline configuration. -/
structure PipelineConfig where
  outputDir : Option String := none
  input : Option String := none
  steps : List Step

/-- One artifact file written by the run. -/
structure FileWrite where
  path : String
  content : String

/-- The record of one completed step: its name, the context snapshot its
process received, and the output it returned. -/
structure ExecEntry where
  stepName : String
  context : StepContext
  output : StepOutput

/-- The result of a run: either every step completed, or the run aborted at
a failing step, reporting that step's name and the unmodified error.  Both
cases carry the cumulative output map, the files written so far, and the
trace of completed steps. -/
inductive RunResult : Type where
  | ok (outputs : List (String × StepOutput)) (written : List FileWrite)
      (trace : List ExecEntry)
  | failed (stepName : String) (err : String) (outputs : List (String × StepOutput))
      (written : List FileWrite) (trace : List ExecEntry)

/-- JavaScript object insertion: an existing key is overwritten in place,
a new key is appended. -/
def recordInsert {α : Type} (m : List (String × α)) (k : String) (v : α) : List (String × α) :=
  if m.any (fun e => e.1 == k) then
    m.map (fun e => if e.1 == k then (k, v) else e)
  else m ++ [(k, v)]

/-- JavaScript string-or with a default: the default is used when the
option is absent or empty (falsy). -/
def orDefault (o : Option String) (d : String) : String :=
  match o with
  | some s => if s = "" then d else s
  | none => d

/-- The comment syntax for a file extension (the static lookup table). -/
def getCommentForFileType (ext : String) : Option (String × Option String) :=
  match ext with
  | ".js" => some ("//", none)
  | ".ts" => some ("//", none)
  | ".jsx" => some ("//", none)
  | ".tsx" => some ("//", none)
  | ".py" => some ("#", none)
  | ".sh" => some ("#", none)
  | ".bash" => some ("#", none)
  | ".yaml" => some ("#", none)
  | ".yml" => some ("#", none)
  | ".toml" => some ("#", none)
  | ".ini" => some ("#", none)
  | ".conf" => some ("#", none)
  | ".css" => some ("/*", some "*/")
  | ".scss" => some ("//", none)
  | ".sass" => some ("//", none)
  | ".less" => some ("//", none)
  | ".html" => some ("<!--", some "-->")
  | ".xml" => some ("<!--", some "-->")
  | ".sql" => some ("--", none)
  | ".rs" => some ("//", none)
  | ".go" => some ("//", none)
  | ".java" => some ("//", none)
  | ".c" => some ("//", none)
  | ".cpp" => some ("//", none)
  | ".h" => some ("//", none)
  | ".hpp" => some ("//", none)
  | ".cs" => some ("//", none)
  | ".php" => some ("//", none)
  | ".rb" => some ("#", none)
  | ".pl" => some ("#", none)
  | ".r" => some ("#", none)
  | ".lua" => some ("--", none)
  | ".vim" => some ("\"", none)
  | ".dockerfile" => some ("#", none)
  | ".gitignore" => some ("#", none)
  | ".env" => some ("#", none)
  | _ => none

/-- The provenance header prepended to a written artifact; the pair's
second component is the closing delimiter of a multi-line comment style. -/
def addAutogenerationComment (content : String) (fileExt : String) (timestamp : String) : String :=
  match getCommentForFileType fileExt with
  | none => content
  | some (start, some stop) =>
      start ++ " This file is auto-generated using oax. Do not edit manually.\n     Generated on: " ++
        timestamp ++ " " ++ stop ++ "\n\n" ++ content
  | some (start, none) =>
      start ++ " This file is auto-generated using oax. Do not edit manually.\n" ++ start ++
        " Generated on: " ++ timestamp ++ "\n\n" ++ content

/-- The extension of a file name, from the last dot of its last path
segment; empty for dotfiles and extensionless names. -/
def extname (file : String) : String :=
  let base := (splitOnChar '/' file.toList).getLastD file.toList
  match splitOnChar '.' base with
  | [] => ""
  | [_] => ""
  | [] :: [_] => ""
  | parts => String.mk ('.' :: parts.getLastD [])

/-- The strict linear scan of the pipeline engine (`Pipeline.run`'s loop):
for each step, build the context snapshot, invoke the process, insert the
output into the cumulative map, write the artifact when an output file is
declared, and continue; on a process error, stop at once reporting the
step's name. -/
def runAux (inputs : List (String × StepInput)) (outputDir : String) (timestamp : String) :
    List (String × StepOutput) → List FileWrite → List ExecEntry → List Step → RunResult
  | outputs, written, trace, [] => .ok outputs written trace
  | outputs, written, trace, step :: rest =>
      let context : StepContext :=
        { inputs := inputs, outputDir := outputDir, previousOutputs := outputs }
      match step.process context with
      | .error e => .failed step.name e outputs written trace
      | .ok output =>
          let outputs2 := recordInsert outputs step.name output
          let written2 :=
            match step.outputFile with
            | some file =>
                let ext := lowerAscii (extname file)
                let contentText :=
                  addAutogenerationComment output.content.serialize ext timestamp
                written ++ [{ path := outputDir ++ "/" ++ file, content := contentText }]
            | none => written
          runAux inputs outputDir timestamp outputs2 written2
            (trace ++ [{ stepName := step.name, context := context, output := output }]) rest

/-- The initial raw-input map of a run: the configured input path mapped to
the parsed raw content, loaded once before the first step. -/
def pipelineInputs (config : PipelineConfig) (rawInput : Content) : List (String × StepInput) :=
  match config.input with
  | some ip => [(ip, { name := ip, content := rawInput })]
  | none => []

/-- A full pipeline run: the raw input is loaded once (its parsed content
supplied as `rawInput`), then the steps run in order from an empty output
map.  The timestamp of the provenance header is supplied explicitly. -/
def Pipeline.run (config : PipelineConfig) (rawInput : Content) (timestamp : String) : RunResult :=
  runAux (pipelineInputs config rawInput) (orDefault config.outputDir "oax") timestamp
    [] [] [] config.steps

/-- The missing-dependency error message of the Zod generator step. -/
def zodGeneratorMissingMsg (inputStep : String) : String :=
  "No output found from step \"" ++ inputStep ++
    "\". Make sure the OAS parser step runs before this step."

/-- The Zod generator step (`zodGenerator`): reads the parsed description
from the configured input step (default `oas-parser`), fails when that
entry is missing or its content is falsy, and otherwise emits the schema
and operation code (the external pretty-printer is modelled as the
identity), recording the extracted operations in the metadata. -/
def zodGenerator (inputStepOpt outputFileOpt : Option String) : Step :=
  { name := "zod-generator",
    outputFile := some (orDefault outputFileOpt "schemas.ts"),
    process := fun context =>
      let inputStep := orDefault inputStepOpt "oas-parser"
      let oasData := (lookupRecord context.previousOutputs inputStep).map (fun o => o.content)
      match oasData with
      | none => .error (zodGeneratorMissingMsg inputStep)
      | some c =>
          if c.falsy then .error (zodGeneratorMissingMsg inputStep)
          else
            let d := c.asDoc
            let schemas := generateZodSchemas d
            let operations := generateOperations d
            let schemaCode := generateSchemaCode schemas
            let operationsCode := generateOperationsCode operations
            let fullCode := "import \x7b z \x7d from \x27zod\x27;\n\n" ++ schemaCode ++
              "\n\n" ++ operationsCode
            .ok { name := "zod-schemas-and-operations",
                  content := .str fullCode,
                  metaOperations := some (operations.map (fun op => (op.operationId, op))) } }

/-- The missing-dependency error message of the validator pipeline step. -/
def validatorPipelineMissingMsg (inputStep : String) : String :=
  "No output found from step \"" ++ inputStep ++
    "\". Make sure the Zod generator step runs before this step."

/-- The missing-operations error message of the validator pipeline step. -/
def validatorPipelineNoOpsMsg (inputStep : String) : String :=
  "No operations found in step \"" ++ inputStep ++
    "\". Make sure the Zod generator includes operations."

/-- The generated validator client text: a long constant template whose
only interpolation is the validation-enabled flag; the constant text is an
out-of-scope runtime artifact and is abbreviated to that interpolation. -/
def validatorClientCode (validationEnabled : Bool) : String :=
  "let validationEnabled = " ++ toString validationEnabled ++ ";"

/-- The validator pipeline step (`validatorPipeline`): reads the Zod
generator's output from the configured input step (default
`zod-generator`), fails when that entry is missing, then fails when the
entry carries no extracted operations in its metadata. -/
def validatorPipeline (inputStepOpt outputFileOpt : Option String)
    (enableValidation : Option Bool) : Step :=
  { name := "validator-pipeline",
    outputFile := some (orDefault outputFileOpt "validator-client.ts"),
    process := fun context =>
      let inputStep := orDefault inputStepOpt "zod-generator"
      match lookupRecord context.previousOutputs inputStep with
      | none => .error (validatorPipelineMissingMsg inputStep)
      | some zodOutput =>
          match zodOutput.metaOperations with
          | none => .error (validatorPipelineNoOpsMsg inputStep)
          | some _ =>
              .ok { name := "validator-client",
                    content := .str (validatorClientCode (enableValidation ≠ some false)) } }

/-- Claim C5: translation is deterministic and free of hidden state — the
translator is a pure function of the schema node, so structurally equal
nodes yield character-for-character identical code-fragment text, however
often and whenever translation is invoked. -/
theorem translation_deterministic (s t : SchemaNode) (h : s = t) :
    generateZodCodeFromSchema s = generateZodCodeFromSchema t := by
  rw [h]

/-- Witness for C5 at a concrete node, also evaluating the fragment. -/
theorem translation_deterministic_w :
    generateZodCodeFromSchema (SchemaNode.ofCore { type := some "boolean" }) =
      generateZodCodeFromSchema (SchemaNode.ofCore { type := some "boolean" }) ∧
    generateZodCodeFromSchema (SchemaNode.ofCore { type := some "boolean" }) = "z.boolean()" := by
  constructor
  · exact translation_deterministic _ _ rfl
  · simp only [SchemaNode.ofCore, generateZodCodeFromSchema, generateBaseZodSchema,
      SchemaNode.core]
    rfl

/-- Claim C7: a string schema with an enum list short-circuits to the
literal-value-set fragment, which depends only on the enum values — the
format, length and pattern fields are ignored entirely. -/
theorem string_enum_short_circuit (s : SchemaNode) (vs : List String)
    (h : s.core.enum = some vs) :
    generateStringSchema s =
      "z.enum([" ++ String.intercalate ", " (vs.map (fun v => "\x27" ++ v ++ "\x27")) ++ "])" := by
  simp [generateStringSchema, h]

/-- Witness for C7: a node carrying an enum together with a format, both
length bounds and a pattern still translates to the bare enum fragment. -/
theorem string_enum_short_circuit_w :
    generateStringSchema (SchemaNode.ofCore
      { type := some "string", enum := some ["a", "b"], format := some "uuid",
        minLength := some 1, maxLength := some 5, pattern := some "x" }) =
      "z.enum([\x27a\x27, \x27b\x27])" := by
  have h := string_enum_short_circuit (SchemaNode.ofCore
      { type := some "string", enum := some ["a", "b"], format := some "uuid",
        minLength := some 1, maxLength := some 5, pattern := some "x" }) ["a", "b"] rfl
  rw [h]
  rfl

/-- The check performed by the emitted uniqueness refinement on an integer
array: the set cardinality of the elements equals the array length. -/
def uniqueRefinementCheck (items : List Int) : Bool :=
  items.dedup.length == items.length

/-- Claim C8: an array schema with `uniqueItems = true` chains, after the
item schema and the count constraints, the set-cardinality refinement with
the fixed message, and that check rejects `[1, 1]` and accepts `[1, 2]`. -/
theorem array_unique_items_refinement (core : SchemaCore)
    (a b o : Option (List SchemaNode)) (i : Option SchemaNode)
    (p : Option (List (String × SchemaNode))) (ap : Option (Sum Bool SchemaNode))
    (h : core.uniqueItems = true) :
    generateArraySchema (.mk core a b o i p ap) =
      ("z.array(" ++
          (match i with
            | some it => generateZodCodeFromSchema it
            | none => "z.any()") ++ ")" ++
        (match core.minItems with
          | some n => ".min(" ++ toString n ++ ")"
          | none => "") ++
        (match core.maxItems with
          | some n => ".max(" ++ toString n ++ ")"
          | none => "")) ++
      ".refine((items) => new Set(items).size === items.length, \x7b message: \"Items must be unique\" \x7d)" ∧
    uniqueRefinementCheck [1, 1] = false ∧ uniqueRefinementCheck [1, 2] = true := by
  refine ⟨?_, by decide, by decide⟩
  rw [generateArraySchema.eq_def]
  simp only [h, if_true]

/-- Witness for C8 at a concrete array node with item schema and both count
constraints. -/
theorem array_unique_items_refinement_w :
    generateArraySchema (SchemaNode.mk
        { type := some "array", minItems := some 1, maxItems := some 3, uniqueItems := true }
        none none none (some (SchemaNode.ofCore { type := some "integer" })) none none) =
      "z.array(z.number().int()).min(1).max(3).refine((items) => new Set(items).size === items.length, \x7b message: \"Items must be unique\" \x7d)" ∧
    uniqueRefinementCheck [1, 1] = false ∧ uniqueRefinementCheck [1, 2] = true := by
  have h := array_unique_items_refinement
    { type := some "array", minItems := some 1, maxItems := some 3, uniqueItems := true }
    none none none (some (SchemaNode.ofCore { type := some "integer" })) none none rfl
  refine ⟨h.1.trans ?_, h.2.1, h.2.2⟩
  simp only [SchemaNode.ofCore, generateZodCodeFromSchema, generateBaseZodSchema,
    generateIntegerSchema, numericConstraints, SchemaNode.core]
  rfl

/-- Claim C6: for a declared object property, a name in the required set is
rendered without the optional suffix, a name outside it with the suffix,
and a deprecated property differs only by the trailing marker comment;
the object fragment renders exactly one such entry per declared
property. -/
theorem object_required_optional_partition (req : Option (List String)) (nm : String)
    (prop : SchemaNode) :
    (nm ∈ req.getD [] →
        renderObjectProperty req nm prop =
          nm ++ ": " ++ generateZodCodeFromSchema prop ++
            (if prop.core.deprecated then " /* @deprecated */" else "")) ∧
    (nm ∉ req.getD [] →
        renderObjectProperty req nm prop =
          nm ++ ": " ++ generateZodCodeFromSchema prop ++ ".optional()" ++
            (if prop.core.deprecated then " /* @deprecated */" else "")) ∧
    (∀ props : List (String × SchemaNode),
        genProps req props = props.map (fun e => renderObjectProperty req e.1 e.2)) := by
  refine ⟨?_, ?_, ?_⟩
  · intro hmem
    rcases req with _ | r
    · simp at hmem
    · simp only [Option.getD] at hmem
      have hc : r.contains nm = true := by
        simpa using hmem
      simp only [renderObjectProperty, hc]
      rcases hd : prop.core.deprecated with _ | _ <;> simp
  · intro hmem
    rcases req with _ | r
    · simp only [renderObjectProperty]
      rcases hd : prop.core.deprecated with _ | _ <;> simp
    · simp only [Option.getD] at hmem
      have hc : r.contains nm = false := by
        simpa using hmem
      simp only [renderObjectProperty, hc]
      rcases hd : prop.core.deprecated with _ | _ <;> simp
  · intro props
    induction props with
    | nil => simp [genProps]
    | cons x rest ih =>
        rcases x with ⟨nm2, p2⟩
        simp only [genProps, List.map_cons]
        rw [ih]

/-- Witness for C6: a required property, an optional property and a
deprecated optional property of a concrete object node. -/
theorem object_required_optional_partition_w :
    renderObjectProperty (some ["id"]) "id" (SchemaNode.ofCore { type := some "boolean" }) =
      "id: z.boolean()" ∧
    renderObjectProperty (some ["id"]) "tag" (SchemaNode.ofCore { type := some "boolean" }) =
      "tag: z.boolean().optional()" ∧
    renderObjectProperty (some ["id"]) "old"
        (SchemaNode.ofCore { type := some "boolean", deprecated := true }) =
      "old: z.boolean().optional() /* @deprecated */" := by
  have h1 := (object_required_optional_partition (some ["id"]) "id"
    (SchemaNode.ofCore { type := some "boolean" })).1 (by decide)
  have h2 := (object_required_optional_partition (some ["id"]) "tag"
    (SchemaNode.ofCore { type := some "boolean" })).2.1 (by decide)
  have h3 := (object_required_optional_partition (some ["id"]) "old"
    (SchemaNode.ofCore { type := some "boolean", deprecated := true })).2.1 (by decide)
  refine ⟨h1.trans ?_, h2.trans ?_, h3.trans ?_⟩ <;>
    simp only [SchemaNode.ofCore, generateZodCodeFromSchema, generateBaseZodSchema,
      SchemaNode.core] <;> rfl

/-- Counterexample to claim C1: a schema carrying `anyOf` together with
`nullable = true` translates to the plain union fragment, not to the
union fragment wrapped in the nullable marker. -/
theorem nullable_composition_cex :
    generateZodCodeFromSchema
      (SchemaNode.mk { nullable := true } none
        (some [SchemaNode.ofCore { type := some "string" }]) none none none none) =
      "z.union([z.string()])" ∧
    ("z.union([z.string()])" : String) ≠ "z.union([z.string()])" ++ ".nullable()" := by
  constructor
  · simp only [SchemaNode.ofCore, generateZodCodeFromSchema, genList,
      generateBaseZodSchema, generateStringSchema, SchemaNode.core, String.intercalate]
    rfl
  · decide

/-- Amended claim C1: the nullable marker is applied only on the base-type
path — a node carrying a composition keyword returns the composed fragment
itself, ignoring its nullable flag entirely, while a non-reference,
non-composition node is translated to its base fragment wrapped in the
nullable marker when `nullable = true`. -/
theorem nullable_applies_only_to_noncomposition :
    (∀ (core : SchemaCore) (a b o : Option (List SchemaNode)) (i : Option SchemaNode)
        (p : Option (List (String × SchemaNode))) (ap : Option (Sum Bool SchemaNode)),
        core.ref = none → (a ≠ none ∨ b ≠ none ∨ o ≠ none) →
        generateZodCodeFromSchema (.mk core a b o i p ap) =
          generateZodCodeFromSchema (.mk { core with nullable := false } a b o i p ap)) ∧
    (∀ (core : SchemaCore) (i : Option SchemaNode)
        (p : Option (List (String × SchemaNode))) (ap : Option (Sum Bool SchemaNode)),
        core.ref = none → core.nullable = true →
        generateZodCodeFromSchema (.mk core none none none i p ap) =
          generateBaseZodSchema (.mk core none none none i p ap) ++ ".nullable()") := by
  constructor
  · intro core a b o i p ap href hcomp
    rcases a with _ | la
    · rcases b with _ | lb
      · rcases o with _ | lo
        · rcases hcomp with h | h | h <;> simp at h
        · simp only [generateZodCodeFromSchema, href]
      · simp only [generateZodCodeFromSchema, href]
    · simp only [generateZodCodeFromSchema, href]
  · intro core i p ap href hnull
    simp only [generateZodCodeFromSchema, href, hnull, if_true]

/-- Witness for the amended C1: a nullable `anyOf` node translates exactly
as its non-nullable twin, and a nullable plain string node is wrapped. -/
theorem nullable_applies_only_to_noncomposition_w :
    generateZodCodeFromSchema
        (SchemaNode.mk { nullable := true } none
          (some [SchemaNode.ofCore { type := some "string" }]) none none none none) =
      generateZodCodeFromSchema
        (SchemaNode.mk { nullable := false } none
          (some [SchemaNode.ofCore { type := some "string" }]) none none none none) ∧
    generateZodCodeFromSchema
        (SchemaNode.mk { type := some "string", nullable := true } none none none
          none none none) =
      generateBaseZodSchema
        (SchemaNode.mk { type := some "string", nullable := true } none none none
          none none none) ++ ".nullable()" := by
  constructor
  · have h := nullable_applies_only_to_noncomposition.1 { nullable := true } none
      (some [SchemaNode.ofCore { type := some "string" }]) none none none none rfl
      (Or.inr (Or.inl (by simp)))
    simpa using h
  · exact nullable_applies_only_to_noncomposition.2
      { type := some "string", nullable := true } none none none rfl rfl

/-- The number of occurrences of a non-empty character sequence in a
character list (overlapping occurrences counted). -/
def countSubstrAux (sep : List Char) : List Char → Nat
  | [] => 0
  | c :: rest => (if sep.isPrefixOf (c :: rest) then 1 else 0) + countSubstrAux sep rest

/-- The number of occurrences of a non-empty substring in a string. -/
def countOccurrences (sep s : String) : Nat :=
  countSubstrAux sep.toList s.toList

/-- Counterexample to claim C4: a number schema carrying both an inclusive
`minimum` and a legacy numeric `exclusiveMinimum` is translated with two
chained lower-bound constraints, one from each convention. -/
theorem numeric_double_bound_cex :
    generateNumberSchema (SchemaNode.ofCore
      { type := some "number", minimum := some 1,
        exclusiveMinimum := some (NumOrBool.nn 0) }) =
      "z.number().gte(1).gt(0)" ∧
    countOccurrences ".gte(" "z.number().gte(1).gt(0)" = 1 ∧
    countOccurrences ".gt(" "z.number().gte(1).gt(0)" = 1 := by
  refine ⟨?_, by decide, by decide⟩
  simp only [SchemaNode.ofCore, generateNumberSchema, numericConstraints, SchemaNode.core]
  rfl

/-- Amended claim C4: whenever only one lower-bound convention is present,
the fragment carries exactly that one lower-bound constraint (`.gt` for
the boolean-exclusive and the legacy numeric conventions, `.gte`
otherwise), and symmetrically for the upper bound; but when an inclusive
`minimum` and a numeric `exclusiveMinimum` are both present, both a
`.gte` and a `.gt` constraint are emitted (likewise for the upper bound).
The number and integer generators chain these constraints unchanged. -/
theorem numeric_bounds_single_convention (s : SchemaNode)
    (hmul : s.core.multipleOf = none) :
    (∀ m : Int, s.core.minimum = some m → s.core.exclusiveMinimum = some (NumOrBool.nb true) →
        s.core.maximum = none → s.core.exclusiveMaximum = none →
        numericConstraints s = ".gt(" ++ toString m ++ ")") ∧
    (∀ m : Int, s.core.minimum = some m → s.core.exclusiveMinimum = none →
        s.core.maximum = none → s.core.exclusiveMaximum = none →
        numericConstraints s = ".gte(" ++ toString m ++ ")") ∧
    (∀ e : Int, s.core.minimum = none → s.core.exclusiveMinimum = some (NumOrBool.nn e) →
        s.core.maximum = none → s.core.exclusiveMaximum = none →
        numericConstraints s = ".gt(" ++ toString e ++ ")") ∧
    (∀ m e : Int, s.core.minimum = some m → s.core.exclusiveMinimum = some (NumOrBool.nn e) →
        s.core.maximum = none → s.core.exclusiveMaximum = none →
        numericConstraints s = ".gte(" ++ toString m ++ ")" ++ ".gt(" ++ toString e ++ ")") ∧
    (∀ m : Int, s.core.maximum = some m → s.core.exclusiveMaximum = some (NumOrBool.nb true) →
        s.core.minimum = none → s.core.exclusiveMinimum = none →
        numericConstraints s = ".lt(" ++ toString m ++ ")") ∧
    (∀ m : Int, s.core.maximum = some m → s.core.exclusiveMaximum = none →
        s.core.minimum = none → s.core.exclusiveMinimum = none →
        numericConstraints s = ".lte(" ++ toString m ++ ")") ∧
    (∀ e : Int, s.core.maximum = none → s.core.exclusiveMaximum = some (NumOrBool.nn e) →
        s.core.minimum = none → s.core.exclusiveMinimum = none →
        numericConstraints s = ".lt(" ++ toString e ++ ")") ∧
    (∀ m e : Int, s.core.maximum = some m → s.core.exclusiveMaximum = some (NumOrBool.nn e) →
        s.core.minimum = none → s.core.exclusiveMinimum = none →
        numericConstraints s = ".lte(" ++ toString m ++ ")" ++ ".lt(" ++ toString e ++ ")") ∧
    generateNumberSchema s = "z.number()" ++ numericConstraints s ∧
    generateIntegerSchema s = "z.number().int()" ++ numericConstraints s := by
  refine ⟨?_, ?_, ?_, ?_, ?_, ?_, ?_, ?_, rfl, rfl⟩ <;>
    intros <;> simp [numericConstraints, String.append_assoc, *] <;> rfl

/-- Witness for the amended C4, exercising each lower-bound convention and
the mixed case on concrete number nodes. -/
theorem numeric_bounds_single_convention_w :
    numericConstraints (SchemaNode.ofCore
      { type := some "number", minimum := some 5,
        exclusiveMinimum := some (NumOrBool.nb true) }) = ".gt(5)" ∧
    numericConstraints (SchemaNode.ofCore
      { type := some "number", minimum := some 5 }) = ".gte(5)" ∧
    numericConstraints (SchemaNode.ofCore
      { type := some "number", exclusiveMinimum := some (NumOrBool.nn 2) }) = ".gt(2)" ∧
    numericConstraints (SchemaNode.ofCore
      { type := some "number", minimum := some 1,
        exclusiveMinimum := some (NumOrBool.nn 0) }) = ".gte(1)" ++ ".gt(0)" ∧
    generateNumberSchema (SchemaNode.ofCore
      { type := some "number", minimum := some 5 }) = "z.number()" ++ ".gte(5)" := by
  refine ⟨?_, ?_, ?_, ?_, ?_⟩
  · exact (numeric_bounds_single_convention (SchemaNode.ofCore
      { type := some "number", minimum := some 5,
        exclusiveMinimum := some (NumOrBool.nb true) }) rfl).1 5 rfl rfl rfl rfl
  · exact (numeric_bounds_single_convention (SchemaNode.ofCore
      { type := some "number", minimum := some 5 }) rfl).2.1 5 rfl rfl rfl rfl
  · exact (numeric_bounds_single_convention (SchemaNode.ofCore
      { type := some "number",
        exclusiveMinimum := some (NumOrBool.nn 2) }) rfl).2.2.1 2 rfl rfl rfl rfl
  · exact (numeric_bounds_single_convention (SchemaNode.ofCore
      { type := some "number", minimum := some 1,
        exclusiveMinimum := some (NumOrBool.nn 0) }) rfl).2.2.2.1 1 0 rfl rfl rfl rfl
  · have h := numeric_bounds_single_convention (SchemaNode.ofCore
      { type := some "number", minimum := some 5 }) rfl
    have h9 := h.2.2.2.2.2.2.2.2.1
    have h2 := h.2.1 5 rfl rfl rfl rfl
    rw [h9, h2]
    rfl

/-- Claim C10: a declared cookie parameter is recorded by the extraction
loop, but the three emitted parameter groups of any operation record
exclude every cookie parameter; the extractor raises no error for it. -/
theorem cookie_params_dropped (l : List ParameterOrRef) (p : ParameterObject)
    (hmem : ParameterOrRef.pobj p ∈ l) (hcookie : p.paramIn = "cookie") :
    paramInfoOf p ∈ extractParameters l ∧
    (∀ op : OperationInfo,
        paramInfoOf p ∉ pathParamsOf op ∧
        paramInfoOf p ∉ queryParamsOf op ∧
        paramInfoOf p ∉ headerParamsOf op) ∧
    (∀ (pathTemplate method : String) (operation : OperationObject),
        operation.parameters = some l →
        (buildOperationInfo pathTemplate method operation).parameters = extractParameters l) := by
  refine ⟨?_, ?_, ?_⟩
  · induction l with
    | nil => simp at hmem
    | cons x rest ih =>
        cases hmem with
        | head => simp [extractParameters]
        | tail b hmem2 =>
            rcases x with r | q
            · simpa [extractParameters] using ih hmem2
            · simp only [extractParameters, List.mem_cons]
              exact Or.inr (ih hmem2)
  · intro op
    have hin : (paramInfoOf p).paramIn = "cookie" := hcookie
    refine ⟨?_, ?_, ?_⟩ <;>
      · intro hmem2
        simp only [pathParamsOf, queryParamsOf, headerParamsOf, List.mem_filter] at hmem2
        rw [hin] at hmem2
        simp at hmem2
  · intro pathTemplate method operation hparams
    simp [buildOperationInfo, hparams]

/-- Witness for C10: a concrete operation with one cookie parameter
records it in `parameters` while every emitted group is empty. -/
theorem cookie_params_dropped_w :
    paramInfoOf { name := "session", paramIn := "cookie", required := true, schema := none } ∈
      extractParameters [ParameterOrRef.pobj
        { name := "session", paramIn := "cookie", required := true, schema := none }] ∧
    (∀ op : OperationInfo,
        paramInfoOf { name := "session", paramIn := "cookie", required := true, schema := none } ∉
          pathParamsOf op ∧
        paramInfoOf { name := "session", paramIn := "cookie", required := true, schema := none } ∉
          queryParamsOf op ∧
        paramInfoOf { name := "session", paramIn := "cookie", required := true, schema := none } ∉
          headerParamsOf op) := by
  have h := cookie_params_dropped
    [ParameterOrRef.pobj { name := "session", paramIn := "cookie", required := true, schema := none }]
    { name := "session", paramIn := "cookie", required := true, schema := none }
    (List.Mem.head _) rfl
  exact ⟨h.1, h.2.1⟩

/-- The cumulative output map carried by a run result. -/
def RunResult.outputs : RunResult → List (String × StepOutput)
  | .ok o _ _ => o
  | .failed _ _ o _ _ => o

/-- The artifact files carried by a run result. -/
def RunResult.written : RunResult → List FileWrite
  | .ok _ w _ => w
  | .failed _ _ _ w _ => w

/-- The completed-step trace carried by a run result. -/
def RunResult.trace : RunResult → List ExecEntry
  | .ok _ _ t => t
  | .failed _ _ _ _ t => t

/-- The output map spelled out by a trace: one entry per completed step,
keyed by step name, in completion order. -/
def traceOutputs (trace : List ExecEntry) : List (String × StepOutput) :=
  trace.map (fun e => (e.stepName, e.output))

/-- Exactness of the context snapshots along a trace whose accumulated map
started as `acc`: every completed step received exactly the outputs of all
steps completed before it, and the map grows by appending only. -/
def contextsExactFrom (acc : List (String × StepOutput)) : List ExecEntry → Prop
  | [] => True
  | e :: rest =>
      e.context.previousOutputs = acc ∧
      contextsExactFrom (acc ++ [(e.stepName, e.output)]) rest

/-- Inserting a key that is not present appends. -/
theorem recordInsert_of_fresh {α : Type} (m : List (String × α)) (k : String) (v : α)
    (h : k ∉ m.map Prod.fst) : recordInsert m k v = m ++ [(k, v)] := by
  have hany : m.any (fun e => e.1 == k) = false := by
    rw [List.any_eq_false]
    intro e he hk
    have h1 : e.1 = k := by simpa using hk
    exact h (h1 ▸ List.mem_map_of_mem Prod.fst he)
  simp [recordInsert, hany]

/-- Invariant of the engine loop: starting from a state whose output map is
exactly the map of the trace so far, with all involved step names distinct,
the loop appends one trace entry per completed step, each completed step
received exactly the previously accumulated map, and the final map is
exactly the map of the final trace. -/
theorem runAux_invariant (inputs : List (String × StepInput)) (outputDir ts : String) :
    ∀ (steps : List Step) (trace : List ExecEntry) (outputs : List (String × StepOutput))
      (written : List FileWrite),
      outputs = traceOutputs trace →
      ((traceOutputs trace).map Prod.fst ++ steps.map Step.name).Nodup →
      ∃ newEntries : List ExecEntry,
        (runAux inputs outputDir ts outputs written trace steps).trace = trace ++ newEntries ∧
        newEntries.map (fun e => e.stepName) =
          (steps.take newEntries.length).map Step.name ∧
        contextsExactFrom outputs newEntries ∧
        (runAux inputs outputDir ts outputs written trace steps).outputs =
          traceOutputs (trace ++ newEntries) := by
  intro steps
  induction steps with
  | nil =>
      intro trace outputs written hout hnd
      refine ⟨[], by simp [runAux, RunResult.trace], by simp, trivial, ?_⟩
      simp [runAux, RunResult.outputs, hout]
  | cons step rest ih =>
      intro trace outputs written hout hnd
      have hfresh : step.name ∉ (traceOutputs trace).map Prod.fst := by
        intro hmem
        rcases List.nodup_append.mp hnd with ⟨_, _, hdisj⟩
        exact hdisj hmem (by simp)
      rcases hp : step.process ⟨inputs, outputDir, outputs⟩ with e | output
      · refine ⟨[], ?_, by simp, trivial, ?_⟩
        · simp only [runAux, hp, RunResult.trace, List.append_nil]
        · simp only [runAux, hp, RunResult.outputs, List.append_nil]
          exact hout
      · have hins : recordInsert outputs step.name output =
            outputs ++ [(step.name, output)] :=
          recordInsert_of_fresh _ _ _ (hout ▸ hfresh)
        have hout2 : outputs ++ [(step.name, output)] =
            traceOutputs (trace ++ [⟨step.name, ⟨inputs, outputDir, outputs⟩, output⟩]) := by
          simp [traceOutputs, hout]
        have hnd2 : ((traceOutputs
              (trace ++ [⟨step.name, ⟨inputs, outputDir, outputs⟩, output⟩])).map Prod.fst ++
            rest.map Step.name).Nodup := by
          simpa [traceOutputs, List.append_assoc] using hnd
        obtain ⟨ne, h1, h2, h3, h4⟩ := ih
          (trace ++ [⟨step.name, ⟨inputs, outputDir, outputs⟩, output⟩])
          (outputs ++ [(step.name, output)])
          (match step.outputFile with
            | some file =>
                written ++ [⟨outputDir ++ "/" ++ file,
                  addAutogenerationComment output.content.serialize
                    (lowerAscii (extname file)) ts⟩]
            | none => written) hout2 hnd2
        have hstep : runAux inputs outputDir ts outputs written trace (step :: rest) =
            runAux inputs outputDir ts (recordInsert outputs step.name output)
              (match step.outputFile with
                | some file =>
                    written ++ [⟨outputDir ++ "/" ++ file,
                      addAutogenerationComment output.content.serialize
                        (lowerAscii (extname file)) ts⟩]
                | none => written)
              (trace ++ [⟨step.name, ⟨inputs, outputDir, outputs⟩, output⟩]) rest := by
          simp [runAux, hp]
        refine ⟨⟨step.name, ⟨inputs, outputDir, outputs⟩, output⟩ :: ne, ?_, ?_, ?_, ?_⟩
        · rw [hstep, hins, h1]
          simp
        · simpa using h2
        · exact ⟨rfl, by simpa [hout] using h3⟩
        · rw [hstep, hins, h4]
          simp

/-- Claim C2: in a run whose step names are pairwise distinct, every
completed step received as `previousOutputs` exactly the outputs of the
steps completed before it, keyed by step name in completion order (the map
grows by appending only, never removing or overwriting, regardless of
whether the producing step declared an output file); the cumulative map
always equals the keyed trace, and the trace follows the configured step
list in order. -/
theorem pipeline_context_accumulation (config : PipelineConfig) (raw : Content) (ts : String)
    (hnd : (config.steps.map Step.name).Nodup) :
    contextsExactFrom [] (Pipeline.run config raw ts).trace ∧
    (Pipeline.run config raw ts).outputs = traceOutputs (Pipeline.run config raw ts).trace ∧
    (Pipeline.run config raw ts).trace.map (fun e => e.stepName) =
      (config.steps.take (Pipeline.run config raw ts).trace.length).map Step.name := by
  obtain ⟨ne, h1, h2, h3, h4⟩ := runAux_invariant (pipelineInputs config raw)
    (orDefault config.outputDir "oax") ts config.steps [] [] []
    (by simp [traceOutputs]) (by simpa [traceOutputs] using hnd)
  have hrun : Pipeline.run config raw ts =
      runAux (pipelineInputs config raw) (orDefault config.outputDir "oax") ts
        [] [] [] config.steps := rfl
  rw [hrun, h1] at *
  refine ⟨h3, ?_, ?_⟩
  · simpa using h4
  · simpa using h2

/-- Witness for C2: a three-step pipeline in which the middle step writes
no file; the accumulated context facts are obtained from the theorem at
this concrete configuration. -/
theorem pipeline_context_accumulation_w :
    contextsExactFrom []
      (Pipeline.run
        { outputDir := some "out", input := none,
          steps :=
            [⟨"s1", none, some "a.ts", fun _ => .ok ⟨"one", .str "A", none⟩⟩,
             ⟨"s2", none, none, fun _ => .ok ⟨"two", .str "B", none⟩⟩,
             ⟨"s3", none, none, fun _ => .ok ⟨"three", .str "C", none⟩⟩] }
        Content.absent "TS").trace ∧
    (Pipeline.run
        { outputDir := some "out", input := none,
          steps :=
            [⟨"s1", none, some "a.ts", fun _ => .ok ⟨"one", .str "A", none⟩⟩,
             ⟨"s2", none, none, fun _ => .ok ⟨"two", .str "B", none⟩⟩,
             ⟨"s3", none, none, fun _ => .ok ⟨"three", .str "C", none⟩⟩] }
        Content.absent "TS").outputs =
      traceOutputs
        (Pipeline.run
          { outputDir := some "out", input := none,
            steps :=
              [⟨"s1", none, some "a.ts", fun _ => .ok ⟨"one", .str "A", none⟩⟩,
               ⟨"s2", none, none, fun _ => .ok ⟨"two", .str "B", none⟩⟩,
               ⟨"s3", none, none, fun _ => .ok ⟨"three", .str "C", none⟩⟩] }
          Content.absent "TS").trace := by
  have h := pipeline_context_accumulation
    { outputDir := some "out", input := none,
      steps :=
        [⟨"s1", none, some "a.ts", fun _ => .ok ⟨"one", .str "A", none⟩⟩,
         ⟨"s2", none, none, fun _ => .ok ⟨"two", .str "B", none⟩⟩,
         ⟨"s3", none, none, fun _ => .ok ⟨"three", .str "C", none⟩⟩] }
    Content.absent "TS" (by decide)
  exact ⟨h.1, h.2.1⟩

/-- Splitting a run at a list append: the engine processes the first block,
and only on success continues into the second with the accumulated
state. -/
theorem runAux_append (inputs : List (String × StepInput)) (outputDir ts : String)
    (l1 l2 : List Step) :
    ∀ (outputs : List (String × StepOutput)) (written : List FileWrite)
      (trace : List ExecEntry),
      runAux inputs outputDir ts outputs written trace (l1 ++ l2) =
        match runAux inputs outputDir ts outputs written trace l1 with
        | .ok o w t => runAux inputs outputDir ts o w t l2
        | .failed n e o w t => .failed n e o w t := by
  induction l1 with
  | nil => intro o w t; simp [runAux]
  | cons step rest ih =>
      intro o w t
      rcases hp : step.process ⟨inputs, outputDir, o⟩ with e | output
      · simp only [List.cons_append, runAux, hp]
      · simp only [List.cons_append, runAux, hp]
        exact ih _ _ _

/-- Claim C3: when the steps before the failing one all succeed and the
failing step's process raises an error, the run aborts at once: the result
reports the failing step's name with the unmodified error, the failing
step's output is not added to the map, the files already written stay
exactly as they were (no rollback), and no later step contributes
anything. -/
theorem pipeline_step_failure (config : PipelineConfig) (raw : Content) (ts : String)
    (pre : List Step) (s : Step) (post : List Step)
    (outs : List (String × StepOutput)) (written : List FileWrite) (trace : List ExecEntry)
    (errMsg : String)
    (hsteps : config.steps = pre ++ s :: post)
    (hpre : runAux (pipelineInputs config raw) (orDefault config.outputDir "oax") ts
      [] [] [] pre = .ok outs written trace)
    (herr : s.process ⟨pipelineInputs config raw, orDefault config.outputDir "oax", outs⟩ =
      .error errMsg) :
    Pipeline.run config raw ts = .failed s.name errMsg outs written trace := by
  have hrun : Pipeline.run config raw ts =
      runAux (pipelineInputs config raw) (orDefault config.outputDir "oax") ts
        [] [] [] config.steps := rfl
  rw [hrun, hsteps, runAux_append, hpre]
  simp only [runAux, herr]

/-- Witness for C3 (Scenario C): in a three-step pipeline whose second
step throws, the run fails naming step `s2` with the thrown message, the
output map and the written artifact of step `s1` are retained exactly, and
step `s3` contributes nothing. -/
theorem pipeline_step_failure_w :
    Pipeline.run
      { outputDir := some "out", input := none,
        steps :=
          [⟨"s1", none, some "a.ts", fun _ => .ok ⟨"one", .str "A", none⟩⟩,
           ⟨"s2", none, none, fun _ => .error "boom"⟩,
           ⟨"s3", none, none, fun _ => .ok ⟨"three", .str "C", none⟩⟩] }
      Content.absent "TS" =
    .failed "s2" "boom"
      [("s1", ⟨"one", .str "A", none⟩)]
      [⟨"out/a.ts",
        "// This file is auto-generated using oax. Do not edit manually.\n// Generated on: TS\n\nA"⟩]
      [⟨"s1", ⟨[], "out", []⟩, ⟨"one", .str "A", none⟩⟩] := by
  exact pipeline_step_failure
    { outputDir := some "out", input := none,
      steps :=
        [⟨"s1", none, some "a.ts", fun _ => .ok ⟨"one", .str "A", none⟩⟩,
         ⟨"s2", none, none, fun _ => .error "boom"⟩,
         ⟨"s3", none, none, fun _ => .ok ⟨"three", .str "C", none⟩⟩] }
    Content.absent "TS"
    [⟨"s1", none, some "a.ts", fun _ => .ok ⟨"one", .str "A", none⟩⟩]
    ⟨"s2", none, none, fun _ => .error "boom"⟩
    [⟨"s3", none, none, fun _ => .ok ⟨"three", .str "C", none⟩⟩]
    [("s1", ⟨"one", .str "A", none⟩)]
    [⟨"out/a.ts",
      "// This file is auto-generated using oax. Do not edit manually.\n// Generated on: TS\n\nA"⟩]
    [⟨"s1", ⟨[], "out", []⟩, ⟨"one", .str "A", none⟩⟩]
    "boom" rfl rfl rfl

/-- Claim C9: a step that declares an input-step name fails at first use
with a descriptive error embedding that step name when the context holds no
entry under the name — for the Zod generator also when the entry's content
is falsy — and does not proceed with a default; the error text names the
missing step. -/
theorem missing_input_step_error :
    (∀ (istepOpt ofileOpt : Option String) (ctx : StepContext),
        (match lookupRecord ctx.previousOutputs (orDefault istepOpt "oas-parser") with
          | none => True
          | some o => o.content.falsy = true) →
        (zodGenerator istepOpt ofileOpt).process ctx =
          .error (zodGeneratorMissingMsg (orDefault istepOpt "oas-parser"))) ∧
    (∀ (istepOpt ofileOpt : Option String) (enable : Option Bool) (ctx : StepContext),
        lookupRecord ctx.previousOutputs (orDefault istepOpt "zod-generator") = none →
        (validatorPipeline istepOpt ofileOpt enable).process ctx =
          .error (validatorPipelineMissingMsg (orDefault istepOpt "zod-generator"))) ∧
    (∀ istep : String,
        zodGeneratorMissingMsg istep =
          "No output found from step \"" ++ istep ++
            "\". Make sure the OAS parser step runs before this step." ∧
        validatorPipelineMissingMsg istep =
          "No output found from step \"" ++ istep ++
            "\". Make sure the Zod generator step runs before this step.") := by
  refine ⟨?_, ?_, fun istep => ⟨rfl, rfl⟩⟩
  · intro istepOpt ofileOpt ctx h
    rcases heq : lookupRecord ctx.previousOutputs (orDefault istepOpt "oas-parser") with _ | o
    · simp [zodGenerator, heq]
    · rw [heq] at h
      simp [zodGenerator, heq, h]
  · intro istepOpt ofileOpt enable ctx h
    simp [validatorPipeline, h]

/-- Witness for C9: on an empty context both steps fail with their
missing-output errors for their default input-step names. -/
theorem missing_input_step_error_w :
    (zodGenerator none none).process ⟨[], "out", []⟩ =
      .error (zodGeneratorMissingMsg "oas-parser") ∧
    (validatorPipeline none none none).process ⟨[], "out", []⟩ =
      .error (validatorPipelineMissingMsg "zod-generator") := by
  exact ⟨missing_input_step_error.1 none none ⟨[], "out", []⟩ trivial,
    missing_input_step_error.2.1 none none none ⟨[], "out", []⟩ rfl⟩
